import Mathlib

/-
Shallow embedding of the route-finder application (src/src/App.tsx).

The embedding models:
  - the instruction-simplification heuristic of handleSubmit
    (lines 158-208): the JavaScript regular expression
    (?:on|onto|along)\s+([^,.]+?)(?:\s|$|,|.) applied with /i to the
    lowercased instruction, the significance keyword test, the
    mile conversion and toFixed formatting, and the Direct route
    fallback;
  - the tap-selection state machine (handleMapClick, resetSelection);
  - the submit flow with its guard, fetch outcomes, alert and loading
    flag (handleSubmit, and the submit button gate of line 445);
  - the geolocation effect and the map-initialization effect
    (lines 260-292 together with the render at line 394).

Numbers carried by the app (distances in meters, coordinates) are
modeled as rationals; toFixed is modeled exactly (round to nearest,
ties away from zero, as specified for Number.prototype.toFixed).
-/

namespace RouteFinder

/-- Whitespace class of the JavaScript regex token backslash-s,
restricted to the characters that can occur here. -/
def isJsWS (c : Char) : Bool :=
  c = ' ' || c = '\t' || c = '\n' || c = '\r' ||
  c = '\x0b' || c = '\x0c' || c = '\u00A0'

/-- The JavaScript regex metacharacter dot matches any character except
a line terminator. -/
def jsDotMatches (c : Char) : Bool :=
  !(c = '\n' || c = '\r' || c = '\u2028' || c = '\u2029')

/-- A character admitted by the capture class of the regex, which
excludes only comma and period. -/
def isCapChar (c : Char) : Bool := !(c = ',' || c = '.')

/-- The closing group of the regex: whitespace, end of string, comma,
or dot (the dot in the source is unescaped, hence the any-character
metacharacter). -/
def tailOk : List Char → Bool
  | [] => true
  | c :: _ => isJsWS c || c = ',' || jsDotMatches c

/-- Lazy extension of the capture group: the accumulated capture (held
reversed) is returned as soon as the closing group matches the rest,
otherwise one more admissible character is consumed. -/
def lazyCap (acc : List Char) : List Char → Option (List Char)
  | [] => if tailOk [] then some acc.reverse else none
  | c :: rs =>
    if tailOk (c :: rs) then some acc.reverse
    else if isCapChar c then lazyCap (c :: acc) rs else none

/-- The capture group requires at least one admissible character, then
extends lazily. -/
def capStart : List Char → Option (List Char)
  | [] => none
  | c :: rs => if isCapChar c then lazyCap [c] rs else none

/-- Number of leading whitespace characters. -/
def wsCount : List Char → Nat
  | [] => 0
  | c :: rs => if isJsWS c then wsCount rs + 1 else 0

/-- Greedy matching with backtracking for the one-or-more-whitespace
token: consume k whitespace characters, longest first, and continue
with the capture group. -/
def tryWs : Nat → List Char → Option (List Char)
  | 0, _ => none
  | k + 1, t =>
    match capStart (t.drop (k + 1)) with
    | some cap => some cap
    | none => tryWs k t

/-- Continuation of the regex after a preposition alternative matched:
one or more whitespace characters, then the capture, then the closing
group. -/
def afterWsPart (t : List Char) : Option (List Char) :=
  tryWs (wsCount t) t

/-- Try a single preposition alternative at this position. -/
def tryAlt (p : List Char) (t : List Char) : Option (List Char) :=
  if p.isPrefixOf t then afterWsPart (t.drop p.length) else none

/-- The ordered alternation on|onto|along at one start position, with
backtracking between alternatives. -/
def atPos (t : List Char) : Option (List Char) :=
  tryAlt "on".data t <|> tryAlt "onto".data t <|> tryAlt "along".data t

/-- Leftmost match: the regex engine tries each start position from the
left and returns the first successful capture. -/
def scanMatch : List Char → Option (List Char)
  | [] => none
  | c :: rest => atPos (c :: rest) <|> scanMatch rest

/-- String.prototype.toLowerCase, per character (the instructions are
ASCII). -/
def jsToLower (s : String) : String := String.mk (s.data.map Char.toLower)

/-- The roadMatch of line 172: the regex applied to the lowercased
instruction; some capture when the instruction matches. -/
def roadMatchOf (instr : String) : Option (List Char) :=
  scanMatch (jsToLower instr).data

/-- String.prototype.trim on a character list. -/
def jsTrim (l : List Char) : List Char :=
  ((l.dropWhile isJsWS).reverse.dropWhile isJsWS).reverse

/-- The road name displayed for a matching instruction:
roadMatch[1].trim() of line 186. -/
def roadNameOf (instr : String) : Option String :=
  (roadMatchOf instr).map (fun cap => String.mk (jsTrim cap))

/-- String.prototype.includes for the keyword tests. -/
def hasSub (sub : List Char) : List Char → Bool
  | [] => sub.isEmpty
  | c :: rest => sub.isPrefixOf (c :: rest) || hasSub sub rest

/-- includes on strings, as used at lines 176-182. -/
def includesStr (s : String) (sub : String) : Bool :=
  hasSub sub.data s.data

/-- A maneuver step of the Mapbox response: instruction text and
distance in meters. -/
structure MapboxStep where
  instruction : String
  distance : ℚ
deriving DecidableEq

/-- The significance test of lines 175-183: any of the seven keywords
in the lowercased instruction, or distance strictly above 1000. -/
def isSignificant (s : MapboxStep) : Bool :=
  includesStr (jsToLower s.instruction) "highway" ||
  includesStr (jsToLower s.instruction) "freeway" ||
  includesStr (jsToLower s.instruction) "interstate" ||
  includesStr (jsToLower s.instruction) "i-" ||
  includesStr (jsToLower s.instruction) "route" ||
  includesStr (jsToLower s.instruction) "us-" ||
  includesStr (jsToLower s.instruction) "sr-" ||
  decide (s.distance > 1000)

/-- One iteration of the forEach of lines 167-193: the step contributes
its trimmed road name and its distance exactly when the regex matched
and the step is significant. -/
def stepResult (s : MapboxStep) : Option (String × ℚ) :=
  match roadMatchOf s.instruction with
  | none => none
  | some cap =>
    if isSignificant s then some (String.mk (jsTrim cap), s.distance)
    else none

/-- Left-pad a digit string with zeros to the requested width. -/
def padZeros (d : Nat) (s : String) : String :=
  String.mk (List.replicate (d - s.length) '0') ++ s

/-- Render a scaled nonnegative value n (the rounded value times 10^d)
with d decimal digits. -/
def fixedDigits (d : Nat) (n : Nat) : String :=
  Nat.repr (n / 10 ^ d) ++ "." ++ padZeros d (Nat.repr (n % 10 ^ d))

/-- Number.prototype.toFixed with d digits: round to nearest with ties
away from zero. -/
def jsToFixed (d : Nat) (q : ℚ) : String :=
  if q < 0 then "-" ++ fixedDigits d (Int.toNat ⌊-q * 10 ^ d + 1 / 2⌋)
  else fixedDigits d (Int.toNat ⌊q * 10 ^ d + 1 / 2⌋)

/-- The meter-to-mile factor 0.000621371 of lines 190 and 200. -/
def milesRate : ℚ := 621371 / 1000000000

/-- Distance display of lines 190 and 200: miles to one decimal place
with the mi suffix. -/
def fmtMiles (meters : ℚ) : String :=
  jsToFixed 1 (meters * milesRate) ++ " mi"

/-- A simplified direction entry as held in the directions state. -/
structure DirectionStep where
  step : Nat
  instruction : String
  distance : String
deriving DecidableEq

/-- The forEach of lines 167-193 with the running stepCounter k:
matching significant steps are appended with consecutive ordinals,
others are dropped. -/
def simplifySteps : Nat → List MapboxStep → List DirectionStep
  | _, [] => []
  | k, s :: rest =>
    match stepResult s with
    | some (nm, d) => ⟨k, nm, fmtMiles d⟩ :: simplifySteps (k + 1) rest
    | none => simplifySteps k rest

/-- A route leg: its maneuver steps and its total distance in meters
(route.legs[0].distance, read at line 200). -/
structure RouteLeg where
  steps : List MapboxStep
  distance : ℚ
deriving DecidableEq

/-- Lines 164-202: simplify the steps of the leg starting the counter
at 1; when nothing survives, the single synthetic Direct route entry
carries the leg distance. -/
def handleLeg (leg : RouteLeg) : List DirectionStep :=
  let ss := simplifySteps 1 leg.steps
  if ss.isEmpty then [⟨1, "Direct route", fmtMiles leg.distance⟩] else ss

/-- A route of the directions response: legs and geometry. -/
structure MapboxRoute where
  legs : List RouteLeg
  geometry : List (ℚ × ℚ)
deriving DecidableEq

/-- The directions response body: its routes array (a missing routes
field behaves as the empty array at line 160). -/
structure MapboxDirectionsResponse where
  routes : List MapboxRoute
deriving DecidableEq

/-- The currentStep selection state of line 39. The source literal end
is a Lean keyword, rendered end_. -/
inductive SelStep
  | start
  | end_
  | complete
deriving DecidableEq

/-- A map coordinate in decimal degrees. -/
structure Coord where
  lat : ℚ
  lng : ℚ
deriving DecidableEq

/-- The component state relevant to the claims: the two location text
fields, the directions list, the loading flag, the selection step, the
two markers, the drawn route, and whether the map object exists. -/
structure AppState where
  startLocation : String
  endLocation : String
  directions : Option (List DirectionStep)
  isLoading : Bool
  currentStep : SelStep
  startMarker : Option Coord
  endMarker : Option Coord
  routeDrawn : Option (List (ℚ × ℚ))
  mapExists : Bool
deriving DecidableEq

/-- The coordinate text written into a location field at lines 62 and
75: latitude and longitude to six decimal places. -/
def fmtCoord (c : Coord) : String :=
  jsToFixed 6 c.lat ++ ", " ++ jsToFixed 6 c.lng

/-- handleMapClick of lines 46-80: no-op without a map; in start the
tap records the start marker and text and advances to end_; in end_ it
records the end marker and text and advances to complete; in complete
the previous state is returned unchanged. -/
def handleMapClick (coords : Coord) (st : AppState) : AppState :=
  if !st.mapExists then st
  else
    match st.currentStep with
    | SelStep.start =>
      { st with startMarker := some coords,
                startLocation := fmtCoord coords,
                currentStep := SelStep.end_ }
    | SelStep.end_ =>
      { st with endMarker := some coords,
                endLocation := fmtCoord coords,
                currentStep := SelStep.complete }
    | SelStep.complete => st

/-- resetSelection of lines 219-238: back to start, both texts cleared,
directions cleared, both markers removed, route layer removed. -/
def resetSelection (st : AppState) : AppState :=
  { st with currentStep := SelStep.start,
            startLocation := "",
            endLocation := "",
            directions := none,
            startMarker := none,
            endMarker := none,
            routeDrawn := none }

/-- Outcome of the directions fetch: a network failure (fetch rejects),
a non-success HTTP status (line 154 throws), or a parsed body. -/
inductive FetchOutcome
  | networkError
  | httpError
  | success (data : MapboxDirectionsResponse)
deriving DecidableEq

/-- Observable effects of one submission: whether a network request was
issued and whether the blocking alert was shown. -/
structure SubmitEffects where
  requested : Bool
  alerted : Bool
deriving DecidableEq

/-- handleSubmit of lines 133-217 as a state transformer given the
fetch outcome. The guard of line 135 returns the state untouched with
no request. A network error or HTTP error reaches the catch block:
loading cleared, alert shown. On success with an empty routes array
nothing but the loading flag changes. With a route whose legs array is
empty, reading legs[0].steps throws and the catch block runs. Otherwise
the simplified directions are stored and the geometry drawn (drawRoute
returns early without a map). -/
def handleSubmit (st : AppState) (resp : FetchOutcome) :
    AppState × SubmitEffects :=
  if st.startLocation = "" ∨ st.endLocation = "" ∨
     st.startMarker = none ∨ st.endMarker = none then
    (st, ⟨false, false⟩)
  else
    match resp with
    | FetchOutcome.networkError =>
      ({ st with isLoading := false }, ⟨true, true⟩)
    | FetchOutcome.httpError =>
      ({ st with isLoading := false }, ⟨true, true⟩)
    | FetchOutcome.success data =>
      match data.routes with
      | [] => ({ st with isLoading := false }, ⟨true, false⟩)
      | route :: _ =>
        match route.legs with
        | [] => ({ st with isLoading := false }, ⟨true, true⟩)
        | leg :: _ =>
          ({ st with isLoading := false,
                     directions := some (handleLeg leg),
                     routeDrawn :=
                       if st.mapExists then some route.geometry
                       else st.routeDrawn },
           ⟨true, false⟩)

/-- The submit button of line 445 is disabled while loading or before
the selection is complete; a submission event reaches handleSubmit only
otherwise. -/
def submitClick (st : AppState) (resp : FetchOutcome) :
    AppState × SubmitEffects :=
  if st.isLoading = true ∨ st.currentStep ≠ SelStep.complete then
    (st, ⟨false, false⟩)
  else handleSubmit st resp

/-- Outcome of the geolocation effect of lines 260-281. -/
inductive GeoOutcome
  | unsupported
  | denied
  | granted (c : Coord)
deriving DecidableEq

/-- The two state values the geolocation effect controls. -/
structure GeoState where
  loadingLocation : Bool
  userCoords : Option Coord
deriving DecidableEq

/-- Lines 260-275: with no geolocation support the effect only logs and
returns, leaving loadingLocation at its initial true; on denial the
error callback clears loadingLocation but no coordinates exist; on
success the coordinates are stored and loadingLocation cleared. -/
def afterGeo : GeoOutcome → GeoState
  | GeoOutcome.unsupported => ⟨true, none⟩
  | GeoOutcome.denied => ⟨false, none⟩
  | GeoOutcome.granted c => ⟨false, some c⟩

/-- Line 394: the map container element is rendered only once
loadingLocation is false (otherwise a spinner is shown). -/
def containerRendered (g : GeoState) : Bool := !g.loadingLocation

/-- Lines 283-292: the map object is created only when the container is
rendered, loadingLocation is not true, and userCoords is non-null. -/
def mapInitialized (g : GeoState) : Bool :=
  containerRendered g && !g.loadingLocation && g.userCoords.isSome

/-- Unfolding equation: a step with a result is emitted with the
current counter and the counter advances. -/
theorem simplifySteps_cons_some {s : MapboxStep} {nm : String} {d : ℚ}
    {rest : List MapboxStep} {k : Nat} (h : stepResult s = some (nm, d)) :
    simplifySteps k (s :: rest) =
      ⟨k, nm, fmtMiles d⟩ :: simplifySteps (k + 1) rest := by
  simp [simplifySteps, h]

/-- Unfolding equation: a step without a result is dropped and the
counter is unchanged. -/
theorem simplifySteps_cons_none {s : MapboxStep} {rest : List MapboxStep}
    {k : Nat} (h : stepResult s = none) :
    simplifySteps k (s :: rest) = simplifySteps k rest := by
  simp [simplifySteps, h]

/-- If every step of the list yields no result, the simplified list is
empty for every counter value. -/
theorem simplify_none_nil (steps : List MapboxStep)
    (h : ∀ s ∈ steps, stepResult s = none) :
    ∀ k, simplifySteps k steps = [] := by
  induction steps with
  | nil => intro k; rfl
  | cons s rest ih =>
    intro k
    rw [simplifySteps_cons_none (h s (List.mem_cons_self s rest))]
    exact ih (fun t ht => h t (List.mem_cons_of_mem s ht)) k

/-- A member step with a result appears in the simplified list, at a
position whose displayed ordinal is the starting counter plus the
position. -/
theorem simplify_mem_at (s : MapboxStep) (nm : String) (d : ℚ)
    (hres : stepResult s = some (nm, d)) :
    ∀ (steps : List MapboxStep), s ∈ steps → ∀ k,
      ∃ j : Fin (simplifySteps k steps).length,
        (simplifySteps k steps).get j = ⟨k + j.1, nm, fmtMiles d⟩ := by
  intro steps
  induction steps with
  | nil => intro hmem; exact absurd hmem (List.not_mem_nil s)
  | cons t rest ih =>
    intro hmem k
    rcases List.mem_cons.mp hmem with heq | hmem'
    · subst heq
      rw [simplifySteps_cons_some hres]
      exact ⟨⟨0, by simp⟩, by simp⟩
    · cases hr : stepResult t with
      | some v =>
        obtain ⟨nm', d'⟩ := v
        rw [simplifySteps_cons_some hr]
        obtain ⟨⟨j, hj⟩, hget⟩ := ih hmem' (k + 1)
        refine ⟨⟨j + 1, by simpa using hj⟩, ?_⟩
        simpa [Nat.add_assoc, Nat.add_comm 1 j] using hget
      | none =>
        rw [simplifySteps_cons_none hr]
        exact ih hmem' k

/-- Concrete evaluation of the mile formatting at 1609 meters: the
exact product 1609 times 0.000621371 is 0.999785939, whose single
rounded decimal is 1.0. -/
theorem fmtMiles_1609 : fmtMiles 1609 = "1.0 mi" := by
  have h0 : ¬ ((1609 : ℚ) * milesRate < 0) := by norm_num [milesRate]
  have hf : ⌊(1609 : ℚ) * milesRate * 10 ^ 1 + 1 / 2⌋ = 10 := by
    rw [Int.floor_eq_iff]
    norm_num [milesRate]
  simp only [fmtMiles, jsToFixed, if_neg h0, hf]
  decide

/-- The highway keyword alone makes a step significant. -/
theorem significant_of_highway {s : MapboxStep}
    (h : includesStr (jsToLower s.instruction) "highway" = true) :
    isSignificant s = true := by
  simp [isSignificant, h]

/-- A step whose instruction matches the regex and which is significant
contributes its trimmed capture and its distance. -/
theorem stepResult_eq_of_match {s : MapboxStep} {cap : List Char}
    (hm : roadMatchOf s.instruction = some cap)
    (hsig : isSignificant s = true) :
    stepResult s = some (String.mk (jsTrim cap), s.distance) := by
  simp [stepResult, hm, hsig]

/-- The distance carried by a step result is the distance of the step
itself. -/
theorem stepResult_distance {s : MapboxStep} {nm : String} {d : ℚ}
    (h : stepResult s = some (nm, d)) : d = s.distance := by
  unfold stepResult at h
  cases hm : roadMatchOf s.instruction with
  | none => rw [hm] at h; exact absurd h (by simp)
  | some cap =>
    rw [hm] at h
    by_cases hs : isSignificant s
    · simp [hs] at h
      exact h.2.symm
    · simp [hs] at h

/-- Every entry of the simplified list draws its displayed distance
from some source step via fmtMiles. -/
theorem simplify_distance_src (e : DirectionStep) :
    ∀ (steps : List MapboxStep) (k : Nat), e ∈ simplifySteps k steps →
      ∃ s ∈ steps, e.distance = fmtMiles s.distance := by
  intro steps
  induction steps with
  | nil => intro k he; simp [simplifySteps] at he
  | cons t rest ih =>
    intro k he
    cases hr : stepResult t with
    | some v =>
      obtain ⟨nm, d⟩ := v
      rw [simplifySteps_cons_some hr] at he
      rcases List.mem_cons.mp he with heq | he'
      · refine ⟨t, List.mem_cons_self t rest, ?_⟩
        rw [heq, stepResult_distance hr]
      · obtain ⟨s, hs, hds⟩ := ih (k + 1) he'
        exact ⟨s, List.mem_cons_of_mem t hs, hds⟩
    | none =>
      rw [simplifySteps_cons_none hr] at he
      obtain ⟨s, hs, hds⟩ := ih k he
      exact ⟨s, List.mem_cons_of_mem t hs, hds⟩

/-- C1: the claim says the extracted candidate road name is the full
text following the preposition up to the next comma, period, or end of
string. The code disagrees: in the regex the closing group contains an
unescaped dot, which matches any character, so the lazy capture always
stops after a single character. On the very examples named in the
source comment, Turn onto Highway 101 extracts h (not highway 101) and
Continue on I-5 extracts i (not i-5). -/
theorem extractionSingleChar :
    roadNameOf "Turn onto Highway 101" = some "h" ∧
    roadNameOf "Continue on I-5" = some "i" ∧
    stepResult ⟨"Turn onto Highway 101", 2000⟩ = some ("h", 2000) ∧
    ("h" : String) ≠ "highway 101" := by
  decide

/-- C2 counterexample: the instruction Highway contains the keyword
highway at any case and any distance, yet the step is not included in
the simplified output, because the instruction contains no preposition
and the extraction regex fails; the leg falls through to the Direct
route entry. -/
theorem highwayIncludedCounterexample :
    includesStr (jsToLower "Highway") "highway" = true ∧
    stepResult ⟨"Highway", 50⟩ = none ∧
    simplifySteps 1 [⟨"Highway", 50⟩] = [] ∧
    handleLeg ⟨[⟨"Highway", 50⟩], 50⟩ =
      [⟨1, "Direct route", fmtMiles 50⟩] := by
  have hsr : stepResult (⟨"Highway", 50⟩ : MapboxStep) = none := by decide
  have hss : simplifySteps 1 [(⟨"Highway", 50⟩ : MapboxStep)] = [] := by
    rw [simplifySteps_cons_none hsr]
    rfl
  exact ⟨by decide, hsr, hss, by simp [handleLeg, hss]⟩

/-- C2 (amended): a step whose instruction contains highway
case-insensitively and whose instruction also matches the extraction
regex is included in the simplified output, and its ordinal is its
1-based position in the filtered output sequence. -/
theorem highwayIncludedAmended (steps : List MapboxStep) (s : MapboxStep)
    (cap : List Char) (hmem : s ∈ steps)
    (hh : includesStr (jsToLower s.instruction) "highway" = true)
    (hm : roadMatchOf s.instruction = some cap) :
    ∃ j : Fin (simplifySteps 1 steps).length,
      (simplifySteps 1 steps).get j =
        ⟨j.1 + 1, String.mk (jsTrim cap), fmtMiles s.distance⟩ := by
  have hres := stepResult_eq_of_match hm (significant_of_highway hh)
  obtain ⟨j, hj⟩ := simplify_mem_at s _ _ hres steps hmem 1
  exact ⟨j, by simpa [Nat.add_comm] using hj⟩

/-- C2 witness: one significant matching step, included at position 0
with ordinal 1. -/
theorem highwayIncludedAmendedWitness :
    ∃ j : Fin (simplifySteps 1 [⟨"Continue on Highway 101", 50⟩]).length,
      (simplifySteps 1 [⟨"Continue on Highway 101", 50⟩]).get j =
        ⟨j.1 + 1, String.mk (jsTrim ['h']), fmtMiles (50 : ℚ)⟩ :=
  highwayIncludedAmended [⟨"Continue on Highway 101", 50⟩]
    ⟨"Continue on Highway 101", 50⟩ ['h']
    (by decide) (by decide) (by decide)

/-- C3: when no step of the leg survives the combined
extraction-and-significance filter, the output is exactly one entry
with ordinal 1 labeled Direct route, carrying the leg distance
converted to miles and formatted to one decimal place. -/
theorem directRouteFallback (leg : RouteLeg)
    (h : ∀ s ∈ leg.steps, stepResult s = none) :
    handleLeg leg = [⟨1, "Direct route", fmtMiles leg.distance⟩] := by
  simp [handleLeg, simplify_none_nil leg.steps h 1]

/-- C3 witness: a leg with a single filtered-out step produces the
Direct route entry for the whole leg distance. -/
theorem directRouteFallbackWitness :
    handleLeg ⟨[⟨"turn left", 100⟩], 1609⟩ =
      [⟨1, "Direct route", fmtMiles 1609⟩] :=
  directRouteFallback ⟨[⟨"turn left", 100⟩], 1609⟩ (by decide)

/-- C4: a step whose lowercased instruction contains none of the seven
significance keywords and whose distance is at most 1000 meters is
excluded: the simplified output of any surrounding list is the same as
if the step were absent. -/
theorem insignificantExcluded (pre post : List MapboxStep)
    (s : MapboxStep) (k : Nat)
    (h1 : includesStr (jsToLower s.instruction) "highway" = false)
    (h2 : includesStr (jsToLower s.instruction) "freeway" = false)
    (h3 : includesStr (jsToLower s.instruction) "interstate" = false)
    (h4 : includesStr (jsToLower s.instruction) "i-" = false)
    (h5 : includesStr (jsToLower s.instruction) "route" = false)
    (h6 : includesStr (jsToLower s.instruction) "us-" = false)
    (h7 : includesStr (jsToLower s.instruction) "sr-" = false)
    (hd : s.distance ≤ 1000) :
    simplifySteps k (pre ++ s :: post) = simplifySteps k (pre ++ post) := by
  have hlt : ¬ (1000 : ℚ) < s.distance := not_lt.mpr hd
  have hsig : isSignificant s = false := by
    simp [isSignificant, h1, h2, h3, h4, h5, h6, h7, hlt]
  have hnone : stepResult s = none := by
    cases hm : roadMatchOf s.instruction with
    | none => simp [stepResult, hm]
    | some cap => simp [stepResult, hm, hsig]
  induction pre generalizing k with
  | nil => simpa using simplifySteps_cons_none hnone
  | cons p pre ih =>
    cases hp : stepResult p with
    | some v =>
      obtain ⟨nm, d⟩ := v
      simp only [List.cons_append, simplifySteps_cons_some hp]
      rw [ih (k + 1)]
    | none =>
      simp only [List.cons_append, simplifySteps_cons_none hp]
      exact ih k

/-- C4 witness: a short unremarkable turn is dropped from the output. -/
theorem insignificantExcludedWitness :
    simplifySteps 1 ([] ++ ⟨"turn left on main", 500⟩ :: []) =
      simplifySteps 1 ([] ++ []) :=
  insignificantExcluded [] [] ⟨"turn left on main", 500⟩ 1
    (by decide) (by decide) (by decide) (by decide)
    (by decide) (by decide) (by decide) (by decide)

/-- C5: every entry of the simplified output displays the distance of
some source step multiplied by 0.000621371 and formatted to one decimal
place with the mi suffix, and in particular 1609 meters is displayed as
1.0 mi. -/
theorem distanceDisplay (steps : List MapboxStep) (k : Nat)
    (e : DirectionStep) (he : e ∈ simplifySteps k steps) :
    (∃ s ∈ steps, e.distance = fmtMiles s.distance) ∧
    fmtMiles 1609 = "1.0 mi" :=
  ⟨simplify_distance_src e steps k he, fmtMiles_1609⟩

/-- C5 witness: the single included step of 1609 meters displays
1.0 mi. -/
theorem distanceDisplayWitness :
    (∃ s ∈ [(⟨"Continue on I-5", 1609⟩ : MapboxStep)],
      (⟨1, "i", fmtMiles 1609⟩ : DirectionStep).distance =
        fmtMiles s.distance) ∧
    fmtMiles 1609 = "1.0 mi" :=
  distanceDisplay [⟨"Continue on I-5", 1609⟩] 1 ⟨1, "i", fmtMiles 1609⟩
    (by
      rw [simplifySteps_cons_some
        (show stepResult (⟨"Continue on I-5", 1609⟩ : MapboxStep) =
          some ("i", 1609) by decide)]
      simp)

/-- C6: with the map present, a confirmed tap in start records the
coordinate as the origin and advances to end_, a confirmed tap in end_
records it as the destination and advances to complete, a tap in
complete changes nothing, and reset returns to start clearing both
recorded coordinates. -/
theorem selectionStateMachine (st : AppState) (c : Coord)
    (h : st.mapExists = true) :
    (st.currentStep = SelStep.start →
      handleMapClick c st =
        { st with startMarker := some c, startLocation := fmtCoord c,
                  currentStep := SelStep.end_ }) ∧
    (st.currentStep = SelStep.end_ →
      handleMapClick c st =
        { st with endMarker := some c, endLocation := fmtCoord c,
                  currentStep := SelStep.complete }) ∧
    (st.currentStep = SelStep.complete → handleMapClick c st = st) ∧
    (resetSelection st).currentStep = SelStep.start ∧
    (resetSelection st).startMarker = none ∧
    (resetSelection st).endMarker = none := by
  refine ⟨?_, ?_, ?_, rfl, rfl, rfl⟩ <;>
    intro hc <;> simp [handleMapClick, h, hc]

/-- C6 witness: the first confirmed tap on a fresh state with a map
records the origin and advances. -/
theorem selectionStateMachineWitness :
    handleMapClick ⟨10, 20⟩
        ⟨"", "", none, false, SelStep.start, none, none, none, true⟩ =
      { (⟨"", "", none, false, SelStep.start, none, none, none, true⟩ :
          AppState) with
        startMarker := some ⟨10, 20⟩,
        startLocation := fmtCoord ⟨10, 20⟩,
        currentStep := SelStep.end_ } :=
  (selectionStateMachine
    ⟨"", "", none, false, SelStep.start, none, none, none, true⟩
    ⟨10, 20⟩ rfl).1 rfl

/-- C7: when the guard passes and the fetch ends in a non-success HTTP
status or a network failure, exactly one request was issued (no retry),
the alert is shown, the loading flag is cleared, and the previously
displayed directions and drawn route are unchanged. -/
theorem fetchFailureHandling (st : AppState) (resp : FetchOutcome)
    (hs : ¬ st.startLocation = "") (he : ¬ st.endLocation = "")
    (hm1 : ¬ st.startMarker = none) (hm2 : ¬ st.endMarker = none)
    (hr : resp = FetchOutcome.httpError ∨ resp = FetchOutcome.networkError) :
    (handleSubmit st resp).2.requested = true ∧
    (handleSubmit st resp).2.alerted = true ∧
    (handleSubmit st resp).1.isLoading = false ∧
    (handleSubmit st resp).1.directions = st.directions ∧
    (handleSubmit st resp).1.routeDrawn = st.routeDrawn := by
  rcases hr with h | h <;> subst h <;>
    simp [handleSubmit, hs, he, hm1, hm2]

/-- C7 witness: a complete selection hit by an HTTP error alerts,
clears loading, and keeps the directions. -/
theorem fetchFailureHandlingWitness :
    (handleSubmit
        ⟨"a", "b", none, true, SelStep.complete,
          some ⟨1, 2⟩, some ⟨3, 4⟩, none, true⟩
        FetchOutcome.httpError).2.requested = true ∧
    (handleSubmit
        ⟨"a", "b", none, true, SelStep.complete,
          some ⟨1, 2⟩, some ⟨3, 4⟩, none, true⟩
        FetchOutcome.httpError).2.alerted = true ∧
    (handleSubmit
        ⟨"a", "b", none, true, SelStep.complete,
          some ⟨1, 2⟩, some ⟨3, 4⟩, none, true⟩
        FetchOutcome.httpError).1.isLoading = false ∧
    (handleSubmit
        ⟨"a", "b", none, true, SelStep.complete,
          some ⟨1, 2⟩, some ⟨3, 4⟩, none, true⟩
        FetchOutcome.httpError).1.directions =
      (⟨"a", "b", none, true, SelStep.complete,
          some ⟨1, 2⟩, some ⟨3, 4⟩, none, true⟩ : AppState).directions ∧
    (handleSubmit
        ⟨"a", "b", none, true, SelStep.complete,
          some ⟨1, 2⟩, some ⟨3, 4⟩, none, true⟩
        FetchOutcome.httpError).1.routeDrawn =
      (⟨"a", "b", none, true, SelStep.complete,
          some ⟨1, 2⟩, some ⟨3, 4⟩, none, true⟩ : AppState).routeDrawn :=
  fetchFailureHandling
    ⟨"a", "b", none, true, SelStep.complete,
      some ⟨1, 2⟩, some ⟨3, 4⟩, none, true⟩
    FetchOutcome.httpError
    (by decide) (by decide) (by decide) (by decide) (Or.inl rfl)

/-- C8 counterexample: when geolocation is denied (and likewise when it
is unsupported) the map is never initialized, because map creation
requires obtained user coordinates; the claim that the app falls back
to showing the map is false. -/
theorem geoDeniedNoMap :
    mapInitialized (afterGeo GeoOutcome.denied) = false ∧
    mapInitialized (afterGeo GeoOutcome.unsupported) = false := by
  decide

/-- C8 (amended): an unavailable geolocation leaves loadingLocation
true so only the spinner renders and the map is never initialized; a
denial clears loadingLocation so the empty container renders, but the
map is still never initialized for lack of coordinates; only a granted
position initializes the map. -/
theorem geoFailureAmended :
    afterGeo GeoOutcome.unsupported = ⟨true, none⟩ ∧
    afterGeo GeoOutcome.denied = ⟨false, none⟩ ∧
    containerRendered (afterGeo GeoOutcome.unsupported) = false ∧
    containerRendered (afterGeo GeoOutcome.denied) = true ∧
    mapInitialized (afterGeo GeoOutcome.unsupported) = false ∧
    mapInitialized (afterGeo GeoOutcome.denied) = false ∧
    mapInitialized (afterGeo (GeoOutcome.granted ⟨1, 2⟩)) = true := by
  decide

/-- C9: the submit button is disabled while loading, so a submission
event in the loading state issues no request, shows no alert, and
leaves the state unchanged. -/
theorem loadingBlocksResubmission (st : AppState) (resp : FetchOutcome)
    (h : st.isLoading = true) :
    submitClick st resp = (st, ⟨false, false⟩) := by
  simp [submitClick, h]

/-- C9 witness: a loading state ignores a further submission. -/
theorem loadingBlocksResubmissionWitness :
    submitClick
        ⟨"a", "b", none, true, SelStep.complete,
          some ⟨1, 2⟩, some ⟨3, 4⟩, none, true⟩
        FetchOutcome.httpError =
      (⟨"a", "b", none, true, SelStep.complete,
          some ⟨1, 2⟩, some ⟨3, 4⟩, none, true⟩, ⟨false, false⟩) :=
  loadingBlocksResubmission
    ⟨"a", "b", none, true, SelStep.complete,
      some ⟨1, 2⟩, some ⟨3, 4⟩, none, true⟩
    FetchOutcome.httpError rfl

/-- C10: an HTTP success whose body carries an empty (or missing, hence
empty) routes array shows no alert, clears the loading flag, and leaves
the previously displayed directions and the drawn route unchanged. -/
theorem emptyRoutesSilent (st : AppState)
    (hs : ¬ st.startLocation = "") (he : ¬ st.endLocation = "")
    (hm1 : ¬ st.startMarker = none) (hm2 : ¬ st.endMarker = none) :
    (handleSubmit st (FetchOutcome.success ⟨[]⟩)).2.alerted = false ∧
    (handleSubmit st (FetchOutcome.success ⟨[]⟩)).1.isLoading = false ∧
    (handleSubmit st (FetchOutcome.success ⟨[]⟩)).1.directions =
      st.directions ∧
    (handleSubmit st (FetchOutcome.success ⟨[]⟩)).1.routeDrawn =
      st.routeDrawn := by
  simp [handleSubmit, hs, he, hm1, hm2]

/-- C10 witness: an empty routes body on a complete selection is
silent. -/
theorem emptyRoutesSilentWitness :
    (handleSubmit
        ⟨"a", "b", none, true, SelStep.complete,
          some ⟨1, 2⟩, some ⟨3, 4⟩, none, true⟩
        (FetchOutcome.success ⟨[]⟩)).2.alerted = false ∧
    (handleSubmit
        ⟨"a", "b", none, true, SelStep.complete,
          some ⟨1, 2⟩, some ⟨3, 4⟩, none, true⟩
        (FetchOutcome.success ⟨[]⟩)).1.isLoading = false ∧
    (handleSubmit
        ⟨"a", "b", none, true, SelStep.complete,
          some ⟨1, 2⟩, some ⟨3, 4⟩, none, true⟩
        (FetchOutcome.success ⟨[]⟩)).1.directions =
      (⟨"a", "b", none, true, SelStep.complete,
          some ⟨1, 2⟩, some ⟨3, 4⟩, none, true⟩ : AppState).directions ∧
    (handleSubmit
        ⟨"a", "b", none, true, SelStep.complete,
          some ⟨1, 2⟩, some ⟨3, 4⟩, none, true⟩
        (FetchOutcome.success ⟨[]⟩)).1.routeDrawn =
      (⟨"a", "b", none, true, SelStep.complete,
          some ⟨1, 2⟩, some ⟨3, 4⟩, none, true⟩ : AppState).routeDrawn :=
  emptyRoutesSilent
    ⟨"a", "b", none, true, SelStep.complete,
      some ⟨1, 2⟩, some ⟨3, 4⟩, none, true⟩
    (by decide) (by decide) (by decide) (by decide)

end RouteFinder
